import Mathlib

/-!
# Kafka input adapter (`pkg/kafka/input_kafka.go`)

A shallow embedding of `KafkaInput`: its constructor `NewKafkaInput`, the
blocking read `PluginRead`, `Close`, and the per-partition forwarding and
error-draining goroutines that `NewKafkaInput` starts.

Conventions of the embedding.

* A Go byte slice is a `List Nat` (each entry a byte); a `nil` slice and an
  empty slice are both `[]`.
* A Go `error` is `Option GoError`, `none` being `nil`.
* A pointer result `*plugin.Message` is `Option Message`, `none` being `nil`.
* A buffered channel is the list of values it currently buffers, oldest
  first; an unbuffered signalling channel (`quit`) is the Boolean
  "has been closed".
* A `select` over several communications is embedded by the list of its
  possible outcomes, one for each communication that can proceed (The Go
  Programming Language Specification, "Select statements": if one or more
  of the communications can proceed, a single one that can proceed is
  chosen via a uniform pseudo-random selection; otherwise, without a
  default case, the statement blocks).  The empty list of outcomes is
  "blocks".
-/

namespace Kafka

/-! ## Data model -/

/-- A Go byte slice. -/
abbrev Bytes := List Nat

/-- A Go `error` value: the sentinel `plugin.ErrorStopped`, or any other
error, identified by its text. -/
inductive GoError where
  | ErrorStopped
  | other (text : String)
  deriving DecidableEq, Repr

/-- The struct `plugin.Message`: metadata and payload of one message. -/
structure Message where
  Meta : Bytes
  Data : Bytes
  deriving DecidableEq, Repr

/-- The fields of `sarama.ConsumerMessage` the adapter and its transport
use: the originating partition, the offset and the raw payload. -/
structure ConsumerMessage where
  Partition : Int
  Offset : Int
  Value : Bytes
  deriving DecidableEq, Repr

/-- The fields of `InputKafkaConfig` read by `input_kafka.go`. -/
structure InputKafkaConfig where
  Host : String
  Topic : String
  UseJSON : Bool
  deriving DecidableEq, Repr

/-- The struct `KafkaInput`.  `consumers` lists the partition handles, each
identified by its partition; `messages` is the buffered channel created by
`make(chan *sarama.ConsumerMessage, 256)`; `quit` is `true` once the
channel `quit` has been closed. -/
structure KafkaInput where
  config : InputKafkaConfig
  consumers : List Int
  messages : List ConsumerMessage
  quit : Bool
  deriving DecidableEq, Repr

/-- Capacity of the channel `messages`, the constant in
`make(chan *sarama.ConsumerMessage, 256)`. -/
def messagesCap : Nat := 256

/-! ## Collaborators outside `input_kafka.go` -/

/-- Modelled from the spec: the functions `proto.IsOriginPayload` and
`proto.PayloadMetaWithBody` of package `proto`, which `input_kafka.go` only
calls.  The specification treats them as "an external, opaque convention for marking
a byte payload as carrying a metadata segment before its body; detection and
splitting are delegated to an external predicate/splitter pair".  They are
therefore arbitrary total functions here; `PayloadMetaWithBody` returns the
pair `(meta, body)`. -/
structure PayloadFormat where
  IsOriginPayload : Bytes → Bool
  PayloadMetaWithBody : Bytes → Bytes × Bytes

/-- Modelled from the spec: the envelope type `KafkaMessage`, its method
`Dump`, and the decoder `json.Unmarshal` applied to it, which
`input_kafka.go` only uses.  `zero` is the zero value of `KafkaMessage` (the value
of `var kafkaMessage KafkaMessage`); `Unmarshal data v` is
`json.Unmarshal(data, &v)`, returning the envelope it leaves in `v` together
with its error; `Dump` is `KafkaMessage.Dump`, returning the pair
`([]byte, error)`. -/
structure EnvelopeCodec (E : Type) where
  zero : E
  Unmarshal : Bytes → E → E × Option GoError
  Dump : E → Bytes × Option GoError

/-! ## `PluginRead` -/

/-- The two communications of the `select` in `PluginRead`. -/
inductive SelectCase where
  | quit
  | messages
  deriving DecidableEq, Repr

/-- What `PluginRead` returns: the pair `(*plugin.Message, error)`. -/
abbrev ReadResult := Option Message × Option GoError

/-- Lines 106-111 of `PluginRead`: the metadata split applied to `msg.Data`,
and the successful return. -/
def splitMeta (P : PayloadFormat) (data : Bytes) : ReadResult :=
  if P.IsOriginPayload data then
    (some { Meta := (P.PayloadMetaWithBody data).1, Data := (P.PayloadMetaWithBody data).2 }, none)
  else
    (some { Meta := [], Data := data }, none)

/-- Lines 92-111 of `PluginRead`: everything after the `select`, for the
record `message` received from the channel.  The error of `json.Unmarshal`
is not looked at by the source; only that of `Dump` is. -/
def transform {E : Type} (P : PayloadFormat) (C : EnvelopeCodec E)
    (config : InputKafkaConfig) (message : ConsumerMessage) : ReadResult :=
  if config.UseJSON then
    let kafkaMessage := (C.Unmarshal message.Value C.zero).1
    match C.Dump kafkaMessage with
    | (_, some err) => (none, some err)
    | (data, none) => splitMeta P data
  else
    splitMeta P message.Value

/-- One branch of the `select` in `PluginRead` followed by the rest of the
function: `none` when the communication cannot proceed, otherwise the
returned pair and the adapter afterwards. -/
def PluginReadCase {E : Type} (P : PayloadFormat) (C : EnvelopeCodec E)
    (i : KafkaInput) : SelectCase → Option (ReadResult × KafkaInput)
  | SelectCase.quit =>
    if i.quit then some ((none, some GoError.ErrorStopped), i) else none
  | SelectCase.messages =>
    match i.messages with
    | [] => none
    | message :: rest => some (transform P C i.config message, { i with messages := rest })

/-- The method `KafkaInput.PluginRead`: every outcome the call can have in the
adapter state `i`, one for each communication of the `select` that can
proceed.  The empty list means that the call blocks. -/
def PluginRead {E : Type} (P : PayloadFormat) (C : EnvelopeCodec E)
    (i : KafkaInput) : List (ReadResult × KafkaInput) :=
  [SelectCase.quit, SelectCase.messages].filterMap (PluginReadCase P C i)

/-! ## `Close` -/

/-- How a call of `Close` ends: it returns an error value, or it panics.
Both carry the adapter state afterwards. -/
inductive CloseResult where
  | returned (err : Option GoError) (i : KafkaInput)
  | panicked (reason : String) (i : KafkaInput)
  deriving DecidableEq, Repr

/-- The method `KafkaInput.Close`: `close(i.quit); return nil`.  Closing a
channel that is already closed is a run-time panic in Go. -/
def Close (i : KafkaInput) : CloseResult :=
  if i.quit then
    CloseResult.panicked "close of closed channel" i
  else
    CloseResult.returned none { i with quit := true }

/-! ## The running adapter: transport handles and goroutines

`NewKafkaInput` opens one handle for each partition of the topic and starts
two goroutines for each handle.  The transport hands out one handle for a
partition, so a handle is identified by its partition. -/

/-- The consumer client `con` of `NewKafkaInput` (lines 28-39 pick the
injected mock or a live client): `Partitions topic` and
`ConsumePartition topic partition sarama.OffsetNewest`, each with its error.
A handle is identified by its partition, so `ConsumePartition` only reports
whether opening it failed. -/
structure Consumer where
  Partitions : String → List Int × Option GoError
  ConsumePartition : String → Int → Option GoError

/-- A partition handle (`sarama.PartitionConsumer`) as the adapter sees it:
the records waiting on `consumer.Messages()`, the errors waiting on
`consumer.Errors()`, whether the transport has closed these channels (the
record sequence has ended), and how often `consumer.Close()` was called. -/
structure PartitionConsumer where
  Messages : List ConsumerMessage
  Errors : List String
  ended : Bool
  closeCalls : Nat
  deriving DecidableEq, Repr

/-- Control state of the forwarding goroutine of lines 59-65: waiting at
`range consumer.Messages()`, holding `message` at `i.messages <- message`,
or returned (the loop ended and the deferred `consumer.Close()` has run). -/
inductive Forwarder where
  | ranging
  | sending (message : ConsumerMessage)
  | exited
  deriving DecidableEq, Repr

/-- The record a forwarding goroutine holds, as a list. -/
def Forwarder.held : Forwarder → List ConsumerMessage
  | Forwarder.sending message => [message]
  | _ => []

/-- The adapter together with its handles and goroutines.  `log` is the
error log written by `ErrorHandler`.  Three history fields record what
happened so far: `produced p` the records the transport put on partition
`p`, `taken p` the records the forwarding goroutine of `p` received from
its handle, and `decoded` the records `PluginRead` received from the channel
`messages` and passed on to the decoding steps, each in order. -/
structure System where
  input : KafkaInput
  handle : Int → PartitionConsumer
  forwarder : Int → Forwarder
  log : List String
  produced : Int → List ConsumerMessage
  taken : Int → List ConsumerMessage
  decoded : List ConsumerMessage

/-- The function `NewKafkaInput` for the consumer client `con`: `none` when
one of the `log.Fatal` calls ends the process, otherwise the adapter with
an empty channel `messages` of capacity 256, an open channel `quit`, the
handles recorded in `consumers`, and every goroutine at its start. -/
def NewKafkaInput (config : InputKafkaConfig) (con : Consumer) : Option System :=
  match con.Partitions config.Topic with
  | (_, some _) => none
  | (partitions, none) =>
    if partitions.all (fun partition => (con.ConsumePartition config.Topic partition).isNone) then
      some
        { input := { config := config, consumers := partitions, messages := [], quit := false }
          handle := fun _ => { Messages := [], Errors := [], ended := false, closeCalls := 0 }
          forwarder := fun _ => Forwarder.ranging
          log := []
          produced := fun _ => []
          taken := fun _ => []
          decoded := [] }
    else
      none

/-- The records of a list that come from partition `p`. -/
def onPartition (p : Int) (ms : List ConsumerMessage) : List ConsumerMessage :=
  ms.filter (fun m => decide (m.Partition = p))

/-- One atomic step of the running adapter.

* `produce p offset value`: the transport puts a record on
  `consumer.Messages()` of partition `p`.
* `fail p e`: the transport puts an error on `consumer.Errors()` of `p`.
* `finish p`: the transport closes the channels of the handle of `p`.
* `recv p`: the forwarding goroutine of `p` receives the next record in
  `for message := range consumer.Messages()`.
* `send p`: the forwarding goroutine of `p` completes `i.messages <- message`.
* `exit p`: the forwarding goroutine of `p` leaves the loop and runs its
  deferred `consumer.Close()`.
* `logError p`: `ErrorHandler` of `p` receives one error and logs it.
* `read c`: a call of `PluginRead` whose `select` takes communication `c`.
* `close`: a call of `Close`. -/
inductive Action where
  | produce (p : Int) (offset : Int) (value : Bytes)
  | fail (p : Int) (e : String)
  | finish (p : Int)
  | recv (p : Int)
  | send (p : Int)
  | exit (p : Int)
  | logError (p : Int)
  | read (c : SelectCase)
  | close
  deriving DecidableEq, Repr

/-- The state after one step, or `none` when the step is not enabled in `s`
(a send on a full channel or a receive on an empty one blocks; a second
`Close` panics). -/
def step {E : Type} (P : PayloadFormat) (C : EnvelopeCodec E) :
    Action → System → Option System
  | Action.produce p offset value, s =>
    if p ∈ s.input.consumers ∧ (s.handle p).ended = false then
      let message : ConsumerMessage := { Partition := p, Offset := offset, Value := value }
      some { s with
        handle := Function.update s.handle p
          { s.handle p with Messages := (s.handle p).Messages ++ [message] }
        produced := Function.update s.produced p (s.produced p ++ [message]) }
    else none
  | Action.fail p e, s =>
    if p ∈ s.input.consumers ∧ (s.handle p).ended = false then
      some { s with
        handle := Function.update s.handle p
          { s.handle p with Errors := (s.handle p).Errors ++ [e] } }
    else none
  | Action.finish p, s =>
    if p ∈ s.input.consumers ∧ (s.handle p).ended = false then
      some { s with handle := Function.update s.handle p { s.handle p with ended := true } }
    else none
  | Action.recv p, s =>
    if p ∈ s.input.consumers ∧ s.forwarder p = Forwarder.ranging then
      match (s.handle p).Messages with
      | [] => none
      | message :: rest =>
        some { s with
          handle := Function.update s.handle p { s.handle p with Messages := rest }
          forwarder := Function.update s.forwarder p (Forwarder.sending message)
          taken := Function.update s.taken p (s.taken p ++ [message]) }
    else none
  | Action.send p, s =>
    if p ∈ s.input.consumers ∧ s.input.messages.length < messagesCap then
      match s.forwarder p with
      | Forwarder.sending message =>
        some { s with
          input := { s.input with messages := s.input.messages ++ [message] }
          forwarder := Function.update s.forwarder p Forwarder.ranging }
      | _ => none
    else none
  | Action.exit p, s =>
    if p ∈ s.input.consumers ∧ s.forwarder p = Forwarder.ranging
        ∧ (s.handle p).ended = true ∧ (s.handle p).Messages = [] then
      some { s with
        handle := Function.update s.handle p
          { s.handle p with closeCalls := (s.handle p).closeCalls + 1 }
        forwarder := Function.update s.forwarder p Forwarder.exited }
    else none
  | Action.logError p, s =>
    if p ∈ s.input.consumers then
      match (s.handle p).Errors with
      | [] => none
      | e :: rest =>
        some { s with
          handle := Function.update s.handle p { s.handle p with Errors := rest }
          log := s.log ++ [e] }
    else none
  | Action.read c, s =>
    match PluginReadCase P C s.input c with
    | none => none
    | some (_, i) =>
      some { s with
        input := i
        decoded := s.decoded ++
          (match c with
           | SelectCase.quit => []
           | SelectCase.messages => s.input.messages.take 1) }
  | Action.close, s =>
    match Close s.input with
    | CloseResult.returned _ i => some { s with input := i }
    | CloseResult.panicked _ _ => none

/-- The state after a sequence of steps taken one after the other, or `none`
when one of them is not enabled. -/
def run {E : Type} (P : PayloadFormat) (C : EnvelopeCodec E) :
    List Action → System → Option System
  | [], s => some s
  | a :: rest, s =>
    match step P C a s with
    | none => none
    | some t => run P C rest t

/-- A state of the running adapter is reachable when some sequence of steps
leads to it from the state `NewKafkaInput` returns. -/
def Reachable {E : Type} (P : PayloadFormat) (C : EnvelopeCodec E)
    (config : InputKafkaConfig) (con : Consumer) (s : System) : Prop :=
  ∃ s₀ trace, NewKafkaInput config con = some s₀ ∧ run P C trace s₀ = some s

/-! ## Sample inputs

Concrete collaborators and adapter states at which the theorems below are
evaluated. -/

/-- A sample payload format: a payload is marked when its first byte is `49`
(the character `1`), and a marked payload is split after its first byte. -/
def samplePayloadFormat : PayloadFormat where
  IsOriginPayload := fun payload => payload.head? == some 49
  PayloadMetaWithBody := fun payload => (payload.take 1, payload.drop 1)

/-- A sample envelope codec whose envelope is the reconstructed payload
itself.  Parsing accepts a payload that starts with byte `123` (the character
`{`) and stores the rest of it; on any other payload it reports an error and
leaves the envelope as it was.  `Dump` fails on an envelope that contains the
byte `255` and otherwise returns the envelope. -/
def sampleCodec : EnvelopeCodec Bytes where
  zero := []
  Unmarshal := fun data v =>
    match data with
    | 123 :: rest => (rest, none)
    | _ => (v, some (GoError.other "invalid character"))
  Dump := fun envelope =>
    if 255 ∈ envelope then ([], some (GoError.other "unsupported body")) else (envelope, none)

/-- The bytes of the string `hello`. -/
def hello : Bytes := [104, 101, 108, 108, 111]

/-- A record on partition `0` with payload `value`. -/
def sampleRecord (offset : Int) (value : Bytes) : ConsumerMessage :=
  { Partition := 0, Offset := offset, Value := value }

/-- An adapter over one partition with the given decode mode, queue and
cancellation state. -/
def sampleInput (useJSON : Bool) (queue : List ConsumerMessage) (quit : Bool) : KafkaInput :=
  { config := { Host := "localhost:9092", Topic := "test", UseJSON := useJSON }
    consumers := [0]
    messages := queue
    quit := quit }

/-- A consumer client for a topic with the two partitions `0` and `1`, whose
handles open without error. -/
def sampleConsumer : Consumer where
  Partitions := fun _ => ([0, 1], none)
  ConsumePartition := fun _ _ => none

/-- The configuration used with `sampleConsumer`. -/
def sampleConfig : InputKafkaConfig :=
  { Host := "localhost:9092", Topic := "test", UseJSON := false }

/-- The state `NewKafkaInput` returns for `sampleConfig` and `sampleConsumer`. -/
def sampleStart : System :=
  { input := { config := sampleConfig, consumers := [0, 1], messages := [], quit := false }
    handle := fun _ => { Messages := [], Errors := [], ended := false, closeCalls := 0 }
    forwarder := fun _ => Forwarder.ranging
    log := []
    produced := fun _ => []
    taken := fun _ => []
    decoded := [] }

/-- The state reached from `sampleStart` by the steps `trace`, or
`sampleStart` itself when one of them is not enabled. -/
def sampleAfter (trace : List Action) : System :=
  (run samplePayloadFormat sampleCodec trace sampleStart).getD sampleStart

/-- A run over two partitions: three records are produced, two on partition
`0` and one on partition `1`; the goroutine of partition `1` pushes first;
`PluginRead` is called three times. -/
def sampleTrace : List Action :=
  [Action.produce 0 0 hello, Action.produce 1 0 [49], Action.produce 0 1 [],
   Action.recv 1, Action.recv 0, Action.send 1, Action.send 0,
   Action.read SelectCase.messages, Action.recv 0, Action.send 0,
   Action.read SelectCase.messages, Action.read SelectCase.messages]

/-- A run that fills the channel `messages`: 256 records of partition `0` are
produced, received and pushed one after the other, none is read, and a
further record is produced and received by the forwarding goroutine. -/
def fullTrace : List Action :=
  ((List.range 256).map (fun k =>
      [Action.produce 0 (Int.ofNat k) [], Action.recv 0, Action.send 0])).flatten
    ++ [Action.produce 0 256 [], Action.recv 0]

/-- A run in which the record sequence of partition `0` ends: one record is
produced and forwarded, the transport closes the handle, and the forwarding
goroutine returns. -/
def endTrace : List Action :=
  [Action.produce 0 0 hello, Action.finish 0, Action.recv 0, Action.send 0, Action.exit 0]

/-! ## The invariant of the running adapter -/

/-- What holds in every reachable state of the running adapter.

* `cap`: the channel `messages` holds at most its capacity.
* `source`: the records produced on a partition are those its forwarding
  goroutine has taken, followed by those still waiting on the handle.
* `account`: the records taken from a partition are, in order, those of the
  partition that `PluginRead` received, then those in the channel `messages`,
  then the one the forwarding goroutine holds.
* `origin`: a record produced on a partition carries that partition.
* `closes`: `consumer.Close()` has been called once on the handle of a
  forwarding goroutine that has returned, and never on any other handle.
* `drained`: a forwarding goroutine has returned only after the transport
  ended the record sequence of its handle and no record is left on it. -/
structure Inv (s : System) : Prop where
  cap : s.input.messages.length ≤ messagesCap
  source : ∀ p, s.taken p ++ (s.handle p).Messages = s.produced p
  account : ∀ p, onPartition p s.decoded ++ onPartition p s.input.messages
      ++ (s.forwarder p).held = s.taken p
  origin : ∀ p, ∀ m ∈ s.produced p, m.Partition = p
  closes : ∀ p, (s.handle p).closeCalls = if s.forwarder p = Forwarder.exited then 1 else 0
  drained : ∀ p, s.forwarder p = Forwarder.exited →
      (s.handle p).ended = true ∧ (s.handle p).Messages = []

/-! ## Theorems about `PluginRead` and `Close` -/

/-- The metadata split always returns a message and a nil error. -/
theorem splitMeta_ok (P : PayloadFormat) (data : Bytes) :
    ∃ msg, splitMeta P data = (some msg, none) := by
  unfold splitMeta
  split <;> exact ⟨_, rfl⟩

/-- With `UseJSON` set, the rest of `PluginRead` is decided by `Dump` of the
envelope that `json.Unmarshal` left behind. -/
theorem transform_json {E : Type} (P : PayloadFormat) (C : EnvelopeCodec E)
    (config : InputKafkaConfig) (message : ConsumerMessage) (hj : config.UseJSON = true) :
    (∀ data, C.Dump (C.Unmarshal message.Value C.zero).1 = (data, none) →
      transform P C config message = splitMeta P data) ∧
    (∀ data err, C.Dump (C.Unmarshal message.Value C.zero).1 = (data, some err) →
      transform P C config message = (none, some err)) := by
  constructor
  · intro data hd
    simp [transform, hj, hd]
  · intro data err hd
    simp [transform, hj, hd]

/-- After the `select`, the rest of `PluginRead` returns either a message with
a nil error or a nil message with an error. -/
theorem transform_cases {E : Type} (P : PayloadFormat) (C : EnvelopeCodec E)
    (config : InputKafkaConfig) (message : ConsumerMessage) :
    (∃ msg, transform P C config message = (some msg, none)) ∨
    (∃ err, transform P C config message = (none, some err)) := by
  cases hj : config.UseJSON with
  | false =>
    left
    simpa [transform, hj] using splitMeta_ok P message.Value
  | true =>
    rcases hd : C.Dump (C.Unmarshal message.Value C.zero).1 with ⟨data, _ | err⟩
    · left
      rw [(transform_json P C config message hj).1 data hd]
      exact splitMeta_ok P data
    · right
      exact ⟨err, (transform_json P C config message hj).2 data err hd⟩

/-- While `quit` is open and the channel holds a record, the `select` can
only receive that record: the call has exactly one outcome. -/
theorem PluginRead_open {E : Type} (P : PayloadFormat) (C : EnvelopeCodec E)
    (i : KafkaInput) (message : ConsumerMessage) (rest : List ConsumerMessage)
    (hq : i.quit = false) (hm : i.messages = message :: rest) :
    PluginRead P C i = [(transform P C i.config message, { i with messages := rest })] := by
  simp [PluginRead, PluginReadCase, hq, hm]

/-- Claim C1 fails as stated: after `Close`, with the record `hello` in the
queue, `PluginRead` has a second possible outcome besides `(nil, ErrorStopped)`,
in which the `select` receives the record, returns it as a payload with a nil
error and removes it from the queue. -/
theorem PluginRead_after_Close_can_dequeue :
    Close (sampleInput false [sampleRecord 0 hello] false)
        = CloseResult.returned none (sampleInput false [sampleRecord 0 hello] true) ∧
    PluginRead samplePayloadFormat sampleCodec (sampleInput false [sampleRecord 0 hello] true)
        = [((none, some GoError.ErrorStopped), sampleInput false [sampleRecord 0 hello] true),
           ((some { Meta := [], Data := hello }, none), sampleInput false [] true)] ∧
    ¬ (∀ out ∈ PluginRead samplePayloadFormat sampleCodec
          (sampleInput false [sampleRecord 0 hello] true),
        out = ((none, some GoError.ErrorStopped), sampleInput false [sampleRecord 0 hello] true)) := by
  refine ⟨by decide, by decide, ?_⟩
  intro h
  have h2 := h ((some { Meta := [], Data := hello }, none), sampleInput false [] true) (by decide)
  exact absurd h2 (by decide)

/-- Claim C1, amended: once `quit` is closed, `PluginRead` never blocks and
`(nil, ErrorStopped)` with the adapter unchanged is always a possible outcome;
it is the only outcome when the queue is empty.  When the queue is not empty
there are exactly two possible outcomes: `(nil, ErrorStopped)` with the
adapter unchanged, and the one in which the `select` receives the head record,
which returns what the rest of the function makes of that record and removes
it from the queue; the second one is a possible outcome and differs from the
first. -/
theorem PluginRead_after_quit {E : Type} (P : PayloadFormat) (C : EnvelopeCodec E)
    (i : KafkaInput) (hq : i.quit = true) :
    PluginRead P C i ≠ [] ∧
    ((none, some GoError.ErrorStopped), i) ∈ PluginRead P C i ∧
    (i.messages = [] → PluginRead P C i = [((none, some GoError.ErrorStopped), i)]) ∧
    (∀ out ∈ PluginRead P C i,
        out = ((none, some GoError.ErrorStopped), i) ∨
        ∃ message rest, i.messages = message :: rest ∧
          out = (transform P C i.config message, { i with messages := rest })) ∧
    (∀ message rest, i.messages = message :: rest →
        PluginRead P C i
          = [((none, some GoError.ErrorStopped), i),
             (transform P C i.config message, { i with messages := rest })] ∧
        (transform P C i.config message, { i with messages := rest }) ∈ PluginRead P C i ∧
        (transform P C i.config message, { i with messages := rest })
          ≠ ((none, some GoError.ErrorStopped), i)) := by
  cases hm : i.messages with
  | nil => simp [PluginRead, PluginReadCase, hq, hm]
  | cons message rest =>
    have hne : (transform P C i.config message, { i with messages := rest })
        ≠ ((none, some GoError.ErrorStopped), i) := by
      intro h
      have h2 := congrArg (fun out => out.2.messages.length) h
      simp [hm] at h2
    refine ⟨by simp [PluginRead, PluginReadCase, hq, hm],
      by simp [PluginRead, PluginReadCase, hq, hm], by simp,
      by simp [PluginRead, PluginReadCase, hq, hm], ?_⟩
    intro message' rest' hcons
    obtain ⟨rfl, rfl⟩ := List.cons.inj hcons
    exact ⟨by simp [PluginRead, PluginReadCase, hq, hm],
      by simp [PluginRead, PluginReadCase, hq, hm], hne⟩

/-- The amended claim C1 at a closed adapter whose queue holds the record
`hello`: the read has the two outcomes, the second of which returns `hello`
with a nil error and empties the queue. -/
theorem PluginRead_after_quit_witness :
    (PluginRead samplePayloadFormat sampleCodec (sampleInput false [sampleRecord 0 hello] true)
        = [((none, some GoError.ErrorStopped), sampleInput false [sampleRecord 0 hello] true),
           (transform samplePayloadFormat sampleCodec
              (sampleInput false [sampleRecord 0 hello] true).config (sampleRecord 0 hello),
            { sampleInput false [sampleRecord 0 hello] true with messages := [] })] ∧
      (transform samplePayloadFormat sampleCodec
          (sampleInput false [sampleRecord 0 hello] true).config (sampleRecord 0 hello),
        { sampleInput false [sampleRecord 0 hello] true with messages := [] })
        ∈ PluginRead samplePayloadFormat sampleCodec
            (sampleInput false [sampleRecord 0 hello] true) ∧
      (transform samplePayloadFormat sampleCodec
          (sampleInput false [sampleRecord 0 hello] true).config (sampleRecord 0 hello),
        { sampleInput false [sampleRecord 0 hello] true with messages := [] })
        ≠ ((none, some GoError.ErrorStopped), sampleInput false [sampleRecord 0 hello] true)) ∧
    transform samplePayloadFormat sampleCodec
        (sampleInput false [sampleRecord 0 hello] true).config (sampleRecord 0 hello)
      = (some { Meta := [], Data := hello }, none) ∧
    PluginRead samplePayloadFormat sampleCodec (sampleInput false [] true)
      = [((none, some GoError.ErrorStopped), sampleInput false [] true)] :=
  ⟨(PluginRead_after_quit samplePayloadFormat sampleCodec
      (sampleInput false [sampleRecord 0 hello] true) rfl).2.2.2.2 (sampleRecord 0 hello) [] rfl,
   by decide,
   (PluginRead_after_quit samplePayloadFormat sampleCodec (sampleInput false [] true) rfl).2.2.1 rfl⟩

/-- Claim C2 fails as stated: the first `Close` returns nil, the second one
panics, because it closes the channel `quit` a second time. -/
theorem Close_twice_panics :
    Close (sampleInput false [] false) = CloseResult.returned none (sampleInput false [] true) ∧
    Close (sampleInput false [] true)
      = CloseResult.panicked "close of closed channel" (sampleInput false [] true) := by
  constructor <;> decide

/-- Claim C2, amended: on an adapter whose `quit` is open, `Close` returns a
nil error and leaves the adapter cancelled with nothing else changed; a second
`Close` then panics, the adapter staying in that same cancelled state. -/
theorem Close_then_Close {i : KafkaInput} (hq : i.quit = false) :
    Close i = CloseResult.returned none { i with quit := true } ∧
    Close { i with quit := true }
      = CloseResult.panicked "close of closed channel" { i with quit := true } := by
  simp [Close, hq]

/-- The amended claim C2 at a fresh adapter. -/
theorem Close_then_Close_witness :
    Close (sampleInput false [] false)
        = CloseResult.returned none { sampleInput false [] false with quit := true } ∧
    Close { sampleInput false [] false with quit := true }
        = CloseResult.panicked "close of closed channel"
            { sampleInput false [] false with quit := true } :=
  Close_then_Close rfl

/-- Claim C3: with `UseJSON` off and `quit` open, `PluginRead` on a queue whose
head has payload `R` has the single outcome of a nil error and a message that
is `R` unchanged with empty `Meta` when `IsOriginPayload R` is false, and the
pair `PayloadMetaWithBody R` when it is true. -/
theorem PluginRead_raw {E : Type} (P : PayloadFormat) (C : EnvelopeCodec E)
    (i : KafkaInput) (message : ConsumerMessage) (rest : List ConsumerMessage)
    (hj : i.config.UseJSON = false) (hq : i.quit = false)
    (hm : i.messages = message :: rest) :
    ∃ msg, PluginRead P C i = [((some msg, none), { i with messages := rest })] ∧
      (P.IsOriginPayload message.Value = false →
        msg.Data = message.Value ∧ msg.Meta = []) ∧
      (P.IsOriginPayload message.Value = true →
        (msg.Meta, msg.Data) = P.PayloadMetaWithBody message.Value) := by
  rw [PluginRead_open P C i message rest hq hm]
  cases hp : P.IsOriginPayload message.Value with
  | false =>
    exact ⟨{ Meta := [], Data := message.Value }, by simp [transform, splitMeta, hj, hp], by simp⟩
  | true =>
    exact ⟨{ Meta := (P.PayloadMetaWithBody message.Value).1,
             Data := (P.PayloadMetaWithBody message.Value).2 },
      by simp [transform, splitMeta, hj, hp], by simp⟩

/-- Claim C3 at the record `hello`: the read returns `hello` with empty
`Meta` and a nil error (end-to-end scenario 1). -/
theorem PluginRead_raw_witness :
    ∃ msg, PluginRead samplePayloadFormat sampleCodec (sampleInput false [sampleRecord 0 hello] false)
        = [((some msg, none),
            { sampleInput false [sampleRecord 0 hello] false with messages := [] })] ∧
      (samplePayloadFormat.IsOriginPayload (sampleRecord 0 hello).Value = false →
        msg.Data = (sampleRecord 0 hello).Value ∧ msg.Meta = []) ∧
      (samplePayloadFormat.IsOriginPayload (sampleRecord 0 hello).Value = true →
        (msg.Meta, msg.Data) = samplePayloadFormat.PayloadMetaWithBody (sampleRecord 0 hello).Value) :=
  PluginRead_raw samplePayloadFormat sampleCodec (sampleInput false [sampleRecord 0 hello] false)
    (sampleRecord 0 hello) [] rfl rfl rfl

/-- Claim C4 against the code: with `UseJSON` set, when `json.Unmarshal`
reports an error for the head record and `Dump` of the envelope it left behind
succeeds, `PluginRead` returns a message and a nil error; the parse error is
lost. -/
theorem PluginRead_drops_unmarshal_error {E : Type} (P : PayloadFormat) (C : EnvelopeCodec E)
    (i : KafkaInput) (message : ConsumerMessage) (rest : List ConsumerMessage) (data : Bytes)
    (hj : i.config.UseJSON = true) (hq : i.quit = false)
    (hm : i.messages = message :: rest)
    (hparse : (C.Unmarshal message.Value C.zero).2 ≠ none)
    (hdump : C.Dump (C.Unmarshal message.Value C.zero).1 = (data, none)) :
    (C.Unmarshal message.Value C.zero).2 ≠ none ∧
    ∃ msg, PluginRead P C i = [((some msg, none), { i with messages := rest })] := by
  refine ⟨hparse, ?_⟩
  rw [PluginRead_open P C i message rest hq hm, (transform_json P C i.config message hj).1 data hdump]
  obtain ⟨msg, h⟩ := splitMeta_ok P data
  exact ⟨msg, by rw [h]⟩

/-- Claim C4 at the malformed payload `x`: parsing fails, and the read returns
a message with empty `Data` and a nil error. -/
theorem PluginRead_drops_unmarshal_error_witness :
    (sampleCodec.Unmarshal (sampleRecord 0 [120]).Value sampleCodec.zero).2 ≠ none ∧
    ∃ msg, PluginRead samplePayloadFormat sampleCodec (sampleInput true [sampleRecord 0 [120]] false)
        = [((some msg, none),
            { sampleInput true [sampleRecord 0 [120]] false with messages := [] })] :=
  PluginRead_drops_unmarshal_error samplePayloadFormat sampleCodec
    (sampleInput true [sampleRecord 0 [120]] false) (sampleRecord 0 [120]) [] [] rfl rfl rfl
    (by decide) rfl

/-- Claim C5: with `UseJSON` set and `quit` open, when the head record parses
without error into an envelope whose `Dump` succeeds with bytes `data`,
`PluginRead` has the single outcome of a nil error and the message obtained by
applying the metadata rule to `data`: the pair `PayloadMetaWithBody data` when
`IsOriginPayload data` is true, and `data` with empty `Meta` otherwise. -/
theorem PluginRead_json {E : Type} (P : PayloadFormat) (C : EnvelopeCodec E)
    (i : KafkaInput) (message : ConsumerMessage) (rest : List ConsumerMessage)
    (envelope : E) (data : Bytes)
    (hj : i.config.UseJSON = true) (hq : i.quit = false)
    (hm : i.messages = message :: rest)
    (hparse : C.Unmarshal message.Value C.zero = (envelope, none))
    (hdump : C.Dump envelope = (data, none)) :
    ∃ msg, PluginRead P C i = [((some msg, none), { i with messages := rest })] ∧
      (P.IsOriginPayload data = true → (msg.Meta, msg.Data) = P.PayloadMetaWithBody data) ∧
      (P.IsOriginPayload data = false → msg.Data = data ∧ msg.Meta = []) := by
  have hd : C.Dump (C.Unmarshal message.Value C.zero).1 = (data, none) := by
    rw [hparse]; exact hdump
  rw [PluginRead_open P C i message rest hq hm, (transform_json P C i.config message hj).1 data hd]
  cases hp : P.IsOriginPayload data with
  | false => exact ⟨{ Meta := [], Data := data }, by simp [splitMeta, hp], by simp⟩
  | true =>
    exact ⟨{ Meta := (P.PayloadMetaWithBody data).1, Data := (P.PayloadMetaWithBody data).2 },
      by simp [splitMeta, hp], by simp⟩

/-- Claim C5 at an envelope that wraps the marked payload `1hello`: the raw
record starts with `{` and is not marked, the unwrapped bytes are, and the
read splits the unwrapped bytes. -/
theorem PluginRead_json_witness :
    ∃ msg, PluginRead samplePayloadFormat sampleCodec
          (sampleInput true [sampleRecord 0 (123 :: 49 :: hello)] false)
        = [((some msg, none),
            { sampleInput true [sampleRecord 0 (123 :: 49 :: hello)] false with messages := [] })] ∧
      (samplePayloadFormat.IsOriginPayload (49 :: hello) = true →
        (msg.Meta, msg.Data) = samplePayloadFormat.PayloadMetaWithBody (49 :: hello)) ∧
      (samplePayloadFormat.IsOriginPayload (49 :: hello) = false →
        msg.Data = 49 :: hello ∧ msg.Meta = []) :=
  PluginRead_json samplePayloadFormat sampleCodec
    (sampleInput true [sampleRecord 0 (123 :: 49 :: hello)] false)
    (sampleRecord 0 (123 :: 49 :: hello)) [] (49 :: hello) (49 :: hello) rfl rfl rfl rfl rfl

/-- Claim C6: with `quit` open and a non-empty queue, `PluginRead` has exactly
one outcome, which removes the head record and nothing else, whatever the
decoding returns, and leaves `config`, `quit` and `consumers` as they were.
Hence on a queue that starts with `bad`, which fails to decode, followed by
`good`, which decodes to `msg`, the first read returns a nil message and an
error, and the second read returns `msg` and a nil error. -/
theorem PluginRead_frame {E : Type} (P : PayloadFormat) (C : EnvelopeCodec E)
    (i : KafkaInput) (message : ConsumerMessage) (rest : List ConsumerMessage)
    (hq : i.quit = false) (hm : i.messages = message :: rest) :
    (∃ result after, PluginRead P C i = [(result, after)] ∧
      result = transform P C i.config message ∧
      after.messages = rest ∧ after.config = i.config ∧ after.quit = i.quit ∧
      after.consumers = i.consumers) ∧
    (∀ good tail msg, rest = good :: tail →
      (transform P C i.config message).2 ≠ none →
      transform P C i.config good = (some msg, none) →
      ∃ err first second,
        PluginRead P C i = [((none, some err), first)] ∧ first.messages = good :: tail ∧
        PluginRead P C first = [((some msg, none), second)] ∧ second.messages = tail) := by
  constructor
  · exact ⟨_, _, PluginRead_open P C i message rest hq hm, rfl, rfl, rfl, rfl, rfl⟩
  · intro good tail msg hrest hbad hgood
    rcases transform_cases P C i.config message with ⟨m, hmsg⟩ | ⟨err, herr⟩
    · rw [hmsg] at hbad
      exact absurd rfl hbad
    · refine ⟨err, { i with messages := rest }, { i with messages := tail }, ?_, hrest, ?_, rfl⟩
      · rw [PluginRead_open P C i message rest hq hm, herr]
      · have h := PluginRead_open P C { i with messages := rest } good tail hq hrest
        simpa [hgood] using h

/-- Claim C6 at the queue of a record whose `Dump` fails followed by an
envelope of `hello`: both reads have the single outcome the claim states. -/
theorem PluginRead_frame_witness :
    (∃ result after,
      PluginRead samplePayloadFormat sampleCodec
          (sampleInput true [sampleRecord 0 [123, 255], sampleRecord 1 (123 :: hello)] false)
        = [(result, after)] ∧
      result = transform samplePayloadFormat sampleCodec
          (sampleInput true [sampleRecord 0 [123, 255], sampleRecord 1 (123 :: hello)] false).config
          (sampleRecord 0 [123, 255]) ∧
      after.messages = [sampleRecord 1 (123 :: hello)] ∧
      after.config
        = (sampleInput true [sampleRecord 0 [123, 255], sampleRecord 1 (123 :: hello)] false).config ∧
      after.quit
        = (sampleInput true [sampleRecord 0 [123, 255], sampleRecord 1 (123 :: hello)] false).quit ∧
      after.consumers
        = (sampleInput true [sampleRecord 0 [123, 255], sampleRecord 1 (123 :: hello)] false).consumers) ∧
    (∃ err first second,
      PluginRead samplePayloadFormat sampleCodec
          (sampleInput true [sampleRecord 0 [123, 255], sampleRecord 1 (123 :: hello)] false)
        = [((none, some err), first)] ∧
      first.messages = [sampleRecord 1 (123 :: hello)] ∧
      PluginRead samplePayloadFormat sampleCodec first
        = [((some { Meta := [], Data := hello }, none), second)] ∧
      second.messages = []) :=
  ⟨(PluginRead_frame samplePayloadFormat sampleCodec
      (sampleInput true [sampleRecord 0 [123, 255], sampleRecord 1 (123 :: hello)] false)
      (sampleRecord 0 [123, 255]) [sampleRecord 1 (123 :: hello)] rfl rfl).1,
   (PluginRead_frame samplePayloadFormat sampleCodec
      (sampleInput true [sampleRecord 0 [123, 255], sampleRecord 1 (123 :: hello)] false)
      (sampleRecord 0 [123, 255]) [sampleRecord 1 (123 :: hello)] rfl rfl).2
      (sampleRecord 1 (123 :: hello)) [] { Meta := [], Data := hello } rfl (by decide) (by decide)⟩

/-! ## Theorems about the running adapter -/

theorem onPartition_append (p : Int) (xs ys : List ConsumerMessage) :
    onPartition p (xs ++ ys) = onPartition p xs ++ onPartition p ys := by
  simp [onPartition]

theorem onPartition_single (p : Int) (m : ConsumerMessage) :
    onPartition p [m] = if m.Partition = p then [m] else [] := by
  by_cases h : m.Partition = p <;> simp [onPartition, h]

theorem onPartition_cons (p : Int) (m : ConsumerMessage) (ms : List ConsumerMessage) :
    onPartition p (m :: ms) = onPartition p [m] ++ onPartition p ms := by
  rw [← onPartition_append]; rfl

/-- The state `NewKafkaInput` returns satisfies the invariant. -/
theorem inv_init {config : InputKafkaConfig} {con : Consumer} {s : System}
    (h : NewKafkaInput config con = some s) : Inv s := by
  unfold NewKafkaInput at h
  split at h
  · exact absurd h (by simp)
  · split at h
    · obtain rfl := Option.some.inj h
      exact ⟨by simp [messagesCap], by simp, by simp [onPartition, Forwarder.held],
        by simp, by simp, by simp⟩
    · exact absurd h (by simp)

/-- A record the forwarding goroutine of `p` holds comes from partition `p`. -/
theorem held_partition {s : System} (h : Inv s) (p : Int) (m : ConsumerMessage)
    (hm : s.forwarder p = Forwarder.sending m) : m.Partition = p := by
  apply h.origin p m
  rw [← h.source p, ← h.account p, hm]
  simp [Forwarder.held]

/-- Every step preserves the invariant. -/
theorem inv_step {E : Type} (P : PayloadFormat) (C : EnvelopeCodec E) {a : Action}
    {s t : System} (h : Inv s) (hs : step P C a s = some t) : Inv t := by
  cases a with
  | produce p offset value =>
    simp only [step] at hs
    split at hs
    · obtain rfl := Option.some.inj hs
      rename_i hg
      refine ⟨h.cap, ?_, h.account, ?_, ?_, ?_⟩
      rotate_left 3
      · intro q hx
        by_cases hq : q = p
        · subst hq
          have := (h.drained q hx).1
          rw [hg.2] at this
          exact absurd this (by simp)
        · simpa [Function.update_noteq hq] using h.drained q hx
      · intro q
        by_cases hq : q = p
        · subst hq; simp [← h.source q]
        · simpa [Function.update_noteq hq] using h.source q
      · intro q m hm
        by_cases hq : q = p
        · subst hq
          simp only [Function.update_same, List.mem_append, List.mem_singleton] at hm
          rcases hm with hm | rfl
          · exact h.origin q m hm
          · rfl
        · simp only [Function.update_noteq hq] at hm
          exact h.origin q m hm
      · intro q
        by_cases hq : q = p
        · subst hq; simpa using h.closes q
        · simpa [Function.update_noteq hq] using h.closes q
    · exact absurd hs (by simp)
  | fail p e =>
    simp only [step] at hs
    split at hs
    · obtain rfl := Option.some.inj hs
      refine ⟨h.cap, ?_, h.account, h.origin, ?_, ?_⟩
      rotate_left 2
      · intro q hx
        by_cases hq : q = p
        · subst hq; simpa using h.drained q hx
        · simpa [Function.update_noteq hq] using h.drained q hx
      · intro q
        by_cases hq : q = p
        · subst hq; simpa using h.source q
        · simpa [Function.update_noteq hq] using h.source q
      · intro q
        by_cases hq : q = p
        · subst hq; simpa using h.closes q
        · simpa [Function.update_noteq hq] using h.closes q
    · exact absurd hs (by simp)
  | finish p =>
    simp only [step] at hs
    split at hs
    · obtain rfl := Option.some.inj hs
      refine ⟨h.cap, ?_, h.account, h.origin, ?_, ?_⟩
      rotate_left 2
      · intro q hx
        by_cases hq : q = p
        · subst hq; simpa using (h.drained q hx).2
        · simpa [Function.update_noteq hq] using h.drained q hx
      · intro q
        by_cases hq : q = p
        · subst hq; simpa using h.source q
        · simpa [Function.update_noteq hq] using h.source q
      · intro q
        by_cases hq : q = p
        · subst hq; simpa using h.closes q
        · simpa [Function.update_noteq hq] using h.closes q
    · exact absurd hs (by simp)
  | recv p =>
    simp only [step] at hs
    split at hs
    · rename_i hg
      split at hs
      · exact absurd hs (by simp)
      · rename_i message rest hmsgs
        obtain rfl := Option.some.inj hs
        refine ⟨h.cap, ?_, ?_, h.origin, ?_, ?_⟩
        rotate_left 3
        · intro q hx
          by_cases hq : q = p
          · subst hq
            simp at hx
          · simp only [Function.update_noteq hq] at hx ⊢
            exact h.drained q hx
        · intro q
          by_cases hq : q = p
          · subst hq; simp [← h.source q, hmsgs]
          · simpa [Function.update_noteq hq] using h.source q
        · intro q
          by_cases hq : q = p
          · subst hq
            have := h.account q
            rw [hg.2] at this
            simp only [Forwarder.held, List.append_nil] at this
            simp [Forwarder.held, this]
          · simpa [Function.update_noteq hq] using h.account q
        · intro q
          by_cases hq : q = p
          · subst hq
            have := h.closes q
            rw [hg.2] at this
            simpa using this
          · simpa [Function.update_noteq hq] using h.closes q
    · exact absurd hs (by simp)
  | send p =>
    simp only [step] at hs
    split at hs
    · rename_i hg
      split at hs
      · rename_i message hfw
        obtain rfl := Option.some.inj hs
        have hpart := held_partition h p message hfw
        refine ⟨?_, h.source, ?_, h.origin, ?_, ?_⟩
        rotate_left 3
        · intro q hx
          by_cases hq : q = p
          · subst hq
            simp at hx
          · simp only [Function.update_noteq hq] at hx
            exact h.drained q hx
        · simp only [List.length_append, List.length_singleton]
          exact hg.2
        · intro q
          by_cases hq : q = p
          · subst hq
            have := h.account q
            rw [hfw] at this
            simp only [Forwarder.held] at this
            simp [Forwarder.held, onPartition_append, onPartition_single, hpart, ← this]
          · have hne : ¬ message.Partition = q := by rw [hpart]; exact fun e => hq e.symm
            simpa [Function.update_noteq hq, onPartition_append, onPartition_single, hne]
              using h.account q
        · intro q
          by_cases hq : q = p
          · subst hq
            have := h.closes q
            rw [hfw] at this
            simpa using this
          · simpa [Function.update_noteq hq] using h.closes q
      · exact absurd hs (by simp)
    · exact absurd hs (by simp)
  | exit p =>
    simp only [step] at hs
    split at hs
    · rename_i hg
      obtain rfl := Option.some.inj hs
      refine ⟨h.cap, ?_, ?_, h.origin, ?_, ?_⟩
      rotate_left 3
      · intro q hx
        by_cases hq : q = p
        · subst hq
          simpa using hg.2.2
        · simp only [Function.update_noteq hq] at hx ⊢
          exact h.drained q hx
      · intro q
        by_cases hq : q = p
        · subst hq; simpa using h.source q
        · simpa [Function.update_noteq hq] using h.source q
      · intro q
        by_cases hq : q = p
        · subst hq
          have := h.account q
          rw [hg.2.1] at this
          simpa [Forwarder.held] using this
        · simpa [Function.update_noteq hq] using h.account q
      · intro q
        by_cases hq : q = p
        · subst hq
          have := h.closes q
          rw [hg.2.1] at this
          simpa using this
        · simpa [Function.update_noteq hq] using h.closes q
    · exact absurd hs (by simp)
  | logError p =>
    simp only [step] at hs
    split at hs
    · split at hs
      · exact absurd hs (by simp)
      · obtain rfl := Option.some.inj hs
        refine ⟨h.cap, ?_, h.account, h.origin, ?_, ?_⟩
        rotate_left 2
        · intro q hx
          by_cases hq : q = p
          · subst hq; simpa using h.drained q hx
          · simpa [Function.update_noteq hq] using h.drained q hx
        · intro q
          by_cases hq : q = p
          · subst hq; simpa using h.source q
          · simpa [Function.update_noteq hq] using h.source q
        · intro q
          by_cases hq : q = p
          · subst hq; simpa using h.closes q
          · simpa [Function.update_noteq hq] using h.closes q
    · exact absurd hs (by simp)
  | read c =>
    cases c with
    | quit =>
      simp only [step, PluginReadCase] at hs
      split at hs
      · exact absurd hs (by simp)
      · rename_i r i hcase
        obtain rfl := Option.some.inj hs
        split at hcase
        · obtain ⟨-, rfl⟩ := Prod.mk.inj (Option.some.inj hcase)
          exact ⟨h.cap, h.source, by simpa using h.account, h.origin, h.closes, h.drained⟩
        · exact absurd hcase (by simp)
    | messages =>
      simp only [step, PluginReadCase] at hs
      split at hs
      · exact absurd hs (by simp)
      · rename_i r i hcase
        obtain rfl := Option.some.inj hs
        split at hcase
        · exact absurd hcase (by simp)
        · rename_i message rest hmsgs
          obtain ⟨-, rfl⟩ := Prod.mk.inj (Option.some.inj hcase)
          refine ⟨?_, h.source, ?_, h.origin, h.closes, h.drained⟩
          · have := h.cap
            rw [hmsgs] at this
            simp only [List.length_cons] at this
            exact Nat.le_of_succ_le this
          · intro q
            have := h.account q
            rw [hmsgs, onPartition_cons] at this
            simpa [hmsgs, onPartition_append] using this
  | close =>
    simp only [step, Close] at hs
    split at hs
    · rename_i e i hclose
      obtain rfl := Option.some.inj hs
      split at hclose
      · exact absurd hclose (by simp)
      · obtain ⟨-, rfl⟩ := CloseResult.returned.inj hclose
        exact ⟨h.cap, h.source, h.account, h.origin, h.closes, h.drained⟩
    · exact absurd hs (by simp)

/-- Every sequence of steps preserves the invariant. -/
theorem inv_run {E : Type} (P : PayloadFormat) (C : EnvelopeCodec E) (trace : List Action) :
    ∀ {s t : System}, Inv s → run P C trace s = some t → Inv t := by
  induction trace with
  | nil =>
    intro s t h hr
    obtain rfl := Option.some.inj hr
    exact h
  | cons a rest ih =>
    intro s t h hr
    simp only [run] at hr
    split at hr
    · exact absurd hr (by simp)
    · rename_i u hu
      exact ih (inv_step P C h hu) hr

/-- Every reachable state satisfies the invariant. -/
theorem inv_reachable {E : Type} (P : PayloadFormat) (C : EnvelopeCodec E)
    {config : InputKafkaConfig} {con : Consumer} {s : System}
    (h : Reachable P C config con s) : Inv s := by
  obtain ⟨s₀, trace, h₀, hr⟩ := h
  exact inv_run P C trace (inv_init h₀) hr

/-- The state after `sampleTrace` is reachable. -/
theorem sampleTrace_reachable :
    Reachable samplePayloadFormat sampleCodec sampleConfig sampleConsumer
      (sampleAfter sampleTrace) :=
  ⟨sampleStart, sampleTrace, rfl, rfl⟩

/-- Claim C7: in every reachable state, that is after every interleaving of
the steps of the transport, the forwarding goroutines and `PluginRead`, and
for every partition `p`, the records of `p` that `PluginRead` received, in
the order it received them, are a prefix of the sequence produced on `p`. -/
theorem partition_order_preserved {E : Type} (P : PayloadFormat) (C : EnvelopeCodec E)
    (config : InputKafkaConfig) (con : Consumer) (s : System)
    (h : Reachable P C config con s) (p : Int) :
    onPartition p s.decoded <+: s.produced p := by
  have hi := inv_reachable P C h
  refine ⟨onPartition p s.input.messages ++ (s.forwarder p).held ++ (s.handle p).Messages, ?_⟩
  rw [← hi.source p, ← hi.account p]
  simp [List.append_assoc]

/-- Claim C7 after `sampleTrace`: the two records of partition `0` were read
in the order they were produced, although a record of partition `1` was read
before them. -/
theorem partition_order_preserved_witness :
    (sampleAfter sampleTrace).decoded
      = [{ Partition := 1, Offset := 0, Value := [49] },
         { Partition := 0, Offset := 0, Value := hello },
         { Partition := 0, Offset := 1, Value := [] }] ∧
    onPartition 0 (sampleAfter sampleTrace).decoded <+: (sampleAfter sampleTrace).produced 0 :=
  ⟨by decide,
   partition_order_preserved samplePayloadFormat sampleCodec sampleConfig sampleConsumer
     (sampleAfter sampleTrace) sampleTrace_reachable 0⟩

/-- Claim C8: in every reachable state the channel `messages` holds at most
256 records; when it holds 256 the push of a forwarding goroutine is not
enabled; and for every partition the records taken from its handle are
exactly, in order, the records of that partition that `PluginRead` received,
then those in the channel, then the one its forwarding goroutine holds, a
goroutine only ever holding a record of its own partition.  Hence every
record occurs as often in these three places together as it was taken. -/
theorem backpressure_without_loss {E : Type} (P : PayloadFormat) (C : EnvelopeCodec E)
    (config : InputKafkaConfig) (con : Consumer) (s : System)
    (h : Reachable P C config con s) :
    s.input.messages.length ≤ 256 ∧
    (∀ p, s.input.messages.length = 256 → step P C (Action.send p) s = none) ∧
    (∀ p, onPartition p s.decoded ++ onPartition p s.input.messages ++ (s.forwarder p).held
        = s.taken p) ∧
    (∀ p m, m ∈ (s.forwarder p).held → m.Partition = p) ∧
    (∀ m, s.decoded.count m + s.input.messages.count m + ((s.forwarder m.Partition).held).count m
        = (s.taken m.Partition).count m) := by
  have hi := inv_reachable P C h
  refine ⟨hi.cap, ?_, hi.account, ?_, ?_⟩
  · intro p hfull
    simp [step, hfull, messagesCap]
  · intro p m hm
    cases hf : s.forwarder p with
    | sending message =>
      rw [hf] at hm
      simp only [Forwarder.held, List.mem_singleton] at hm
      subst hm
      exact held_partition hi p m hf
    | ranging => rw [hf] at hm; simp [Forwarder.held] at hm
    | exited => rw [hf] at hm; simp [Forwarder.held] at hm
  · intro m
    rw [← hi.account m.Partition, List.count_append, List.count_append]
    simp [onPartition, List.count_filter]

set_option maxRecDepth 1000000 in
/-- The state after `fullTrace` is reachable. -/
theorem fullTrace_reachable :
    Reachable samplePayloadFormat sampleCodec sampleConfig sampleConsumer
      (sampleAfter fullTrace) :=
  ⟨sampleStart, fullTrace, rfl, rfl⟩

set_option maxRecDepth 1000000 in
/-- Claim C8 after `fullTrace`: the channel holds 256 records, the forwarding
goroutine of partition `0` holds one more, and its push is not enabled. -/
theorem backpressure_without_loss_witness :
    ((sampleAfter fullTrace).input.messages.length = 256 ∧
     (sampleAfter fullTrace).forwarder 0
       = Forwarder.sending { Partition := 0, Offset := 256, Value := [] } ∧
     step samplePayloadFormat sampleCodec (Action.send 0) (sampleAfter fullTrace) = none) ∧
    ((sampleAfter fullTrace).input.messages.length ≤ 256 ∧
     (∀ p, (sampleAfter fullTrace).input.messages.length = 256 →
       step samplePayloadFormat sampleCodec (Action.send p) (sampleAfter fullTrace) = none) ∧
     (∀ p, onPartition p (sampleAfter fullTrace).decoded
         ++ onPartition p (sampleAfter fullTrace).input.messages
         ++ ((sampleAfter fullTrace).forwarder p).held
         = (sampleAfter fullTrace).taken p) ∧
     (∀ p m, m ∈ ((sampleAfter fullTrace).forwarder p).held → m.Partition = p) ∧
     (∀ m, (sampleAfter fullTrace).decoded.count m
         + (sampleAfter fullTrace).input.messages.count m
         + (((sampleAfter fullTrace).forwarder m.Partition).held).count m
         = ((sampleAfter fullTrace).taken m.Partition).count m)) :=
  ⟨⟨by decide, by decide,
    (backpressure_without_loss samplePayloadFormat sampleCodec sampleConfig sampleConsumer
      (sampleAfter fullTrace) fullTrace_reachable).2.1 0 (by decide)⟩,
   backpressure_without_loss samplePayloadFormat sampleCodec sampleConfig sampleConsumer
     (sampleAfter fullTrace) fullTrace_reachable⟩

/-- Claim C10 fails as stated: after `NewKafkaInput` and one call of `Close`,
which returns with `quit` closed, the handle of partition `0` recorded in
`consumers` has been closed zero times. -/
theorem Close_releases_no_handle :
    NewKafkaInput sampleConfig sampleConsumer = some sampleStart ∧
    run samplePayloadFormat sampleCodec [Action.close] sampleStart
      = some (sampleAfter [Action.close]) ∧
    (sampleAfter [Action.close]).input.quit = true ∧
    (0 : Int) ∈ (sampleAfter [Action.close]).input.consumers ∧
    ((sampleAfter [Action.close]).handle 0).closeCalls = 0 :=
  ⟨rfl, rfl, by decide, by decide, by decide⟩

/-- Claim C10, amended: in every reachable state each handle has been closed
once if its forwarding goroutine has returned, which happens only after the
record sequence of the handle has ended and is drained, and has not been closed
otherwise; and a call of `Close` closes `quit` and changes no handle and no
forwarding goroutine. -/
theorem handle_closed_by_forwarder_only {E : Type} (P : PayloadFormat) (C : EnvelopeCodec E)
    (config : InputKafkaConfig) (con : Consumer) (s : System)
    (h : Reachable P C config con s) :
    (∀ p, (s.handle p).closeCalls = if s.forwarder p = Forwarder.exited then 1 else 0) ∧
    (∀ p, s.forwarder p = Forwarder.exited →
      (s.handle p).ended = true ∧ (s.handle p).Messages = []) ∧
    (∀ t, step P C Action.close s = some t →
      t.input.quit = true ∧ t.handle = s.handle ∧ t.forwarder = s.forwarder) := by
  have hi := inv_reachable P C h
  refine ⟨hi.closes, hi.drained, ?_⟩
  intro t ht
  simp only [step, Close] at ht
  split at ht
  · rename_i e i hclose
    obtain rfl := Option.some.inj ht
    split at hclose
    · exact absurd hclose (by simp)
    · obtain ⟨-, rfl⟩ := CloseResult.returned.inj hclose
      exact ⟨rfl, rfl, rfl⟩
  · exact absurd ht (by simp)

/-- The state after `endTrace` is reachable. -/
theorem endTrace_reachable :
    Reachable samplePayloadFormat sampleCodec sampleConfig sampleConsumer
      (sampleAfter endTrace) :=
  ⟨sampleStart, endTrace, rfl, rfl⟩

/-- The amended claim C10 after `endTrace`: the handle of partition `0`,
whose forwarding goroutine has returned, was closed once, the handle of
partition `1` was not closed, and `Close` is enabled and changes neither. -/
theorem handle_closed_by_forwarder_only_witness :
    (((sampleAfter endTrace).handle 0).closeCalls = 1 ∧
     ((sampleAfter endTrace).handle 1).closeCalls = 0 ∧
     (step samplePayloadFormat sampleCodec Action.close (sampleAfter endTrace)).isSome = true) ∧
    ((∀ p, ((sampleAfter endTrace).handle p).closeCalls
         = if (sampleAfter endTrace).forwarder p = Forwarder.exited then 1 else 0) ∧
     (∀ p, (sampleAfter endTrace).forwarder p = Forwarder.exited →
       ((sampleAfter endTrace).handle p).ended = true ∧
       ((sampleAfter endTrace).handle p).Messages = []) ∧
     (∀ t, step samplePayloadFormat sampleCodec Action.close (sampleAfter endTrace) = some t →
       t.input.quit = true ∧ t.handle = (sampleAfter endTrace).handle ∧
       t.forwarder = (sampleAfter endTrace).forwarder)) :=
  ⟨⟨by decide, by decide, rfl⟩,
   handle_closed_by_forwarder_only samplePayloadFormat sampleCodec sampleConfig sampleConsumer
     (sampleAfter endTrace) endTrace_reachable⟩

end Kafka
